import Mathlib

/-!
Verification of the `pythian` price-update relay (Go) against its
natural-language specification.  The development shallowly embeds the
`schedule` package: the update `Buffer` (buffer.go) and the two slot
monitors `SlotMonitor` (slots.go) and `Schedule` (schedule.go).

Solana public keys are opaque fixed-size byte arrays compared only for
equality; we model them as `Nat`.  The Prometheus counters are modelled
as event logs of emitted increments, so a counter's value at a label is
the count of matching events.  Go's `map` has unspecified iteration
order; the buffer's map is modelled as an association list whose order
stands for one arbitrary iteration order (the claims proved here are
order-insensitive).
-/

/-- Body of the `upd_price` command (`pyth.CommandUpdPrice`): status,
signed price, confidence and the embedded publish slot. -/
structure CommandUpdPrice where
  status  : Nat
  price   : Int
  conf    : Nat
  pubSlot : Nat
deriving DecidableEq, Repr

/-- The payload interface of a `pyth.Instruction`: either the
`upd_price` command or any other command (tagged opaquely).  The Go
code only distinguishes the type assertion `*pyth.CommandUpdPrice`. -/
inductive Payload where
  | updPrice (cmd : CommandUpdPrice)
  | otherCmd (tag : Nat)
deriving DecidableEq, Repr

/-- `pyth.Instruction`: a payload plus the referenced account public
keys as returned by `Instruction.Accounts()`.  For `upd_price` the
accounts are publisher, target price account, auxiliary. -/
structure Instruction where
  payload  : Payload
  accounts : List Nat
deriving DecidableEq, Repr

/-- Labels used with the `metricUpdatesDropped` counter.  The source
uses the literal reason string "replaced" for every drop (both the
coalescing overwrite in `PushUpdate` and the staleness drop in
`appendUpdateToBuilder`). -/
inductive DropReason where
  | replaced
deriving DecidableEq, Repr

/-- The package-level Prometheus counters, as logs of emitted
increments: `metricUpdatesDropped` is labelled (publisher, price,
reason), `metricUpdatesSent` is labelled (publisher, price). -/
structure Metrics where
  dropEvents : List (Nat × Nat × DropReason)
  sentEvents : List (Nat × Nat)
deriving DecidableEq, Repr

def Metrics.init : Metrics := { dropEvents := [], sentEvents := [] }

/-- `metricUpdatesDropped.WithLabelValues(pub, price, r).Inc()`. -/
def Metrics.incDropped (m : Metrics) (pub price : Nat) (r : DropReason) : Metrics :=
  { m with dropEvents := (pub, price, r) :: m.dropEvents }

/-- `metricUpdatesSent.WithLabelValues(pub, price).Inc()`. -/
def Metrics.incSent (m : Metrics) (pub price : Nat) : Metrics :=
  { m with sentEvents := (pub, price) :: m.sentEvents }

/-- Value of the dropped-updates counter at a label. -/
def Metrics.droppedCount (m : Metrics) (pub price : Nat) (r : DropReason) : Nat :=
  m.dropEvents.count (pub, price, r)

/-- Value of the sent-updates counter at a label. -/
def Metrics.sentCount (m : Metrics) (pub price : Nat) : Nat :=
  m.sentEvents.count (pub, price)

/-- The buffer's `map[solana.PublicKey]*pyth.Instruction`, as an
association list (one arbitrary iteration order). -/
abbrev UpdatesMap := List (Nat × Instruction)

/-- Map lookup `b.updates[key]`. -/
def lookupKey : UpdatesMap → Nat → Option Instruction
  | [], _ => none
  | (k, v) :: rest, key => if k = key then some v else lookupKey rest key

/-- Map store `b.updates[key] = v` (replaces an existing binding). -/
def setKey : UpdatesMap → Nat → Instruction → UpdatesMap
  | [], key, v => [(key, v)]
  | (k, w) :: rest, key, v =>
      if k = key then (key, v) :: rest else (k, w) :: setKey rest key v

/-- `schedule.Buffer`: the lock-protected map of pending updates.  The
mutex serialises `PushUpdate`/`Flush`, so each call is one atomic state
transition here. -/
structure Buffer where
  updates : UpdatesMap
deriving DecidableEq, Repr

/-- `NewBuffer()`. -/
def Buffer.new : Buffer := { updates := [] }

/-- `Buffer.PushUpdate` (buffer.go:26-47): reject payloads that are not
`*pyth.CommandUpdPrice` or whose account count is not 3; otherwise
key by the price account (`accs[1]`), counting a replacement drop when
the key was already present. -/
def Buffer.pushUpdate (b : Buffer) (m : Metrics) (ins : Instruction) :
    Buffer × Metrics :=
  match ins.payload with
  | .otherCmd _ => (b, m)
  | .updPrice _ =>
    if ins.accounts.length ≠ 3 then (b, m)
    else
      let publishAcc := ins.accounts.getD 0 0
      let priceAcc := ins.accounts.getD 1 0
      let m' :=
        match lookupKey b.updates priceAcc with
        | some _ => m.incDropped publishAcc priceAcc .replaced
        | none => m
      ({ updates := setKey b.updates priceAcc ins }, m')

/-- `Buffer.appendUpdateToBuilder` (buffer.go:72-95): drop non-
`upd_price` payloads silently (defensive branch, no log, no counter);
drop stale updates (`PubSlot < minSlot`) with a warning and a
"replaced" drop count; otherwise add the instruction to the builder
and count it sent.  The builder is the instruction list of the
`solana.TransactionBuilder`; the returned flag reports inclusion. -/
def Buffer.appendUpdateToBuilder (builder : List Instruction)
    (insn : Instruction) (minSlot : Nat) (m : Metrics) :
    List Instruction × Metrics × Bool :=
  match insn.payload with
  | .otherCmd _ => (builder, m, false)
  | .updPrice update =>
    let publishAcc := insn.accounts.getD 0 0
    let priceAcc := insn.accounts.getD 1 0
    if update.pubSlot < minSlot then
      (builder, m.incDropped publishAcc priceAcc .replaced, false)
    else
      (builder ++ [insn], m.incSent publishAcc priceAcc, true)

/-- The loop body of `Buffer.Flush` (buffer.go:61-66): range over the
map, deleting every visited key and appending the survivors, counting
how many were appended. -/
def flushLoop (minSlot : Nat) :
    UpdatesMap → List Instruction → Metrics → Nat →
    List Instruction × Metrics × Nat
  | [], builder, m, updates => (builder, m, updates)
  | (_, insn) :: rest, builder, m, updates =>
    let r := Buffer.appendUpdateToBuilder builder insn minSlot m
    flushLoop minSlot rest r.1 r.2.1 (if r.2.2 then updates + 1 else updates)

/-- `Buffer.Flush` (buffer.go:53-70): drain the whole map into a fresh
builder, then return `nil` when zero updates were appended and the
builder otherwise. -/
def Buffer.flush (b : Buffer) (m : Metrics) (minSlot : Nat) :
    Buffer × Metrics × Option (List Instruction) :=
  let r := flushLoop minSlot b.updates [] m 0
  ({ updates := [] }, r.2.1, if r.2.2 = 0 then none else some r.1)

/-- The freshness test applied by `appendUpdateToBuilder` to an entry:
`upd_price` payloads survive iff `PubSlot < minSlot` fails; any other
payload is dropped. -/
def keepInsn (minSlot : Nat) (insn : Instruction) : Bool :=
  match insn.payload with
  | .updPrice update => if update.pubSlot < minSlot then false else true
  | .otherCmd _ => false

/-- The instruction list of an optional batch (`nil` holds none). -/
def batchList : Option (List Instruction) → List Instruction
  | none => []
  | some l => l

/-! ## Slot monitors (slots.go and schedule.go) -/

/-- The subtype tag of a `ws.SlotsUpdatesResult`: the accepted
`firstShredReceived` marker, or any other subtype (tagged opaquely). -/
inductive SlotUpdateType where
  | firstShredReceived
  | otherType (tag : Nat)
deriving DecidableEq, Repr

/-- `ws.SlotsUpdatesResult`: slot number, subtype tag, optional
timestamp. -/
structure SlotsUpdatesResult where
  updateType : SlotUpdateType
  slot       : Nat
  timestamp  : Option Int
deriving DecidableEq, Repr

/-- The Go error values the monitors inspect: `context.Canceled`,
`context.DeadlineExceeded`, `net.ErrClosed`, and any other
connection/read error (tagged opaquely). -/
inductive GoErr where
  | canceled
  | deadlineExceeded
  | errClosed
  | connErr (tag : Nat)
deriving DecidableEq, Repr

/-- Outcome of `sub.Recv()`: an error, or a (possibly nil) message. -/
inductive RecvOutcome where
  | recvErr (e : GoErr)
  | recvMsg (u : Option SlotsUpdatesResult)
deriving DecidableEq, Repr

/-- What one `readNextUpdate` call returns to `runConn`: an error or
nil. -/
inductive StepResult where
  | retErr (e : GoErr)
  | retOk
deriving DecidableEq, Repr

/-- `update.Timestamp` defaulting: fill in `now` when absent
(slots.go:101-104 / schedule.go:97-100). -/
def fillTimestamp (u : SlotsUpdatesResult) (now : Int) : SlotsUpdatesResult :=
  match u.timestamp with
  | none => { u with timestamp := some now }
  | some _ => u

/-- The final `select` of `readNextUpdate`: cases `<-ctx.Done()`,
`s.updates <- update` and `default`, followed by `return nil` for the
two send outcomes.  `chan` is the capacity-1 delivery channel (its
pending value, if any); `ctxErr` is `ctx.Err()` of the per-read
context at the select.  With the channel occupied, `default` fires
when the context is live; Go picks randomly when both the done case
and the send case are ready, which the `oracle` argument resolves.
The function is total: the select can never suspend, because the
`default` case is always ready. -/
def selectSend (chan : Option SlotsUpdatesResult) (u : SlotsUpdatesResult)
    (ctxErr : Option GoErr) (oracle : Bool) :
    Option SlotsUpdatesResult × StepResult :=
  match ctxErr, chan with
  | some e, some v => (some v, .retErr e)
  | some e, none => if oracle then (none, .retErr e) else (some u, .retOk)
  | none, none => (some u, .retOk)
  | none, some v => (some v, .retOk)

/-- The state `SlotMonitor` mutates in `readNextUpdate`: the atomic
`lastSlot`, the delivery channel, the sequence of values published on
the event bus, and the `metricSlotUpdates` counter. -/
structure SlotMonitorState where
  lastSlot          : Nat
  chan              : Option SlotsUpdatesResult
  published         : List Nat
  metricSlotUpdates : Nat
deriving DecidableEq, Repr

/-- `NewSlotMonitor`: zero-valued `lastSlot`, empty capacity-1
channel, no publishes yet. -/
def SlotMonitorState.new : SlotMonitorState :=
  { lastSlot := 0, chan := none, published := [], metricSlotUpdates := 0 }

/-- `SlotMonitor.Slot()` (slots.go:143-146): atomic load of
`lastSlot`. -/
def SlotMonitorState.slotFn (s : SlotMonitorState) : Nat :=
  s.lastSlot

/-- `SlotMonitor.readNextUpdate` (slots.go:80-128) as one state
transition.  `recv` is the outcome of `sub.Recv()`; a nil message
yields `net.ErrClosed`; non-accepted subtypes are discarded (`return
nil`); an accepted event stores the slot atomically, publishes it on
the bus, bumps the metric, then runs the non-blocking select. -/
def SlotMonitorState.readNextUpdate (s : SlotMonitorState)
    (recv : RecvOutcome) (now : Int) (ctxErr : Option GoErr)
    (oracle : Bool) : SlotMonitorState × StepResult :=
  match recv with
  | .recvErr e => (s, .retErr e)
  | .recvMsg none => (s, .retErr .errClosed)
  | .recvMsg (some u0) =>
    let u := fillTimestamp u0 now
    if u.updateType ≠ .firstShredReceived then (s, .retOk)
    else
      let s' : SlotMonitorState :=
        { s with lastSlot := u.slot,
                 published := s.published ++ [u.slot],
                 metricSlotUpdates := s.metricSlotUpdates + 1 }
      let r := selectSend s'.chan u ctxErr oracle
      ({ s' with chan := r.1 }, r.2)

/-- The state `Schedule` mutates in `readNextUpdate`: only the
delivery channel. -/
structure ScheduleState where
  chan : Option SlotsUpdatesResult
deriving DecidableEq, Repr

/-- `NewSchedule`: empty capacity-1 channel. -/
def ScheduleState.new : ScheduleState := { chan := none }

/-- `Schedule.readNextUpdate` (schedule.go:76-118) as one state
transition.  Identical to `SlotMonitor.readNextUpdate` except that a
nil message returns nil (not `net.ErrClosed`) and no slot/bus/metric
state exists. -/
def ScheduleState.readNextUpdate (s : ScheduleState)
    (recv : RecvOutcome) (now : Int) (ctxErr : Option GoErr)
    (oracle : Bool) : ScheduleState × StepResult :=
  match recv with
  | .recvErr e => (s, .retErr e)
  | .recvMsg none => (s, .retOk)
  | .recvMsg (some u0) =>
    let u := fillTimestamp u0 now
    if u.updateType ≠ .firstShredReceived then (s, .retOk)
    else
      let r := selectSend s.chan u ctxErr oracle
      ({ chan := r.1 }, r.2)

/-- What the closure passed to `backoff.Retry` makes of one `runConn`
outcome: `backoff.Permanent` stops retrying and surfaces the error as
`Run`'s fatal result; returning nil stops with success; any other
error is retried after the constant backoff interval. -/
inductive BackoffResult where
  | permanent (e : GoErr)
  | success
  | transient (e : GoErr)
deriving DecidableEq, Repr

/-- `errors.Is(err, target)` for our error model (no wrapping). -/
def errIs : Option GoErr → GoErr → Bool
  | some e, t => e = t
  | none, _ => false

/-- The retry-classification in `SlotMonitor.Run` (slots.go:36-52):
`context.Canceled` is permanent; otherwise, when the run context has
an error the closure returns nil; otherwise the error (or nil) is
passed through for retry.  `err` is `runConn`'s result, `ctxErr` is
`ctx.Err()` of the run context. -/
def slotMonitorClassifyRunError (err ctxErr : Option GoErr) : BackoffResult :=
  if errIs err .canceled then .permanent .canceled
  else if ctxErr.isSome then .success
  else
    match err with
    | none => .success
    | some e => .transient e

/-- The retry-classification in `Schedule.Run` (schedule.go:30-46):
identical except that `context.DeadlineExceeded` is also classified
permanent. -/
def scheduleClassifyRunError (err ctxErr : Option GoErr) : BackoffResult :=
  if errIs err .canceled ∨ errIs err .deadlineExceeded then
    .permanent (err.getD .canceled)
  else if ctxErr.isSome then .success
  else
    match err with
    | none => .success
    | some e => .transient e

/-! ## Operation traces over the buffer (for the reachability
invariant) -/

/-- One serialised buffer operation: a `PushUpdate` or a `Flush`. -/
inductive BufOp where
  | push (ins : Instruction)
  | flushOp (minSlot : Nat)

/-- Run a trace of buffer operations from a given state, threading the
metrics and discarding flush results. -/
def runOps : List BufOp → Buffer × Metrics → Buffer × Metrics
  | [], st => st
  | .push ins :: rest, (b, m) => runOps rest (b.pushUpdate m ins)
  | .flushOp minSlot :: rest, (b, m) =>
      let r := b.flush m minSlot
      runOps rest (r.1, r.2.1)

/-- The shape `PushUpdate` demands before inserting: an `upd_price`
payload and exactly 3 referenced accounts. -/
def wellShaped (ins : Instruction) : Prop :=
  (∃ u, ins.payload = .updPrice u) ∧ ins.accounts.length = 3

/-! ## Helper lemmas -/

theorem lookupKey_setKey_self (l : UpdatesMap) (k : Nat) (v : Instruction) :
    lookupKey (setKey l k v) k = some v := by
  induction l with
  | nil => simp [setKey, lookupKey]
  | cons hd tl ih =>
    obtain ⟨k', w⟩ := hd
    by_cases h : k' = k
    · simp [setKey, lookupKey, h]
    · simp [setKey, lookupKey, h, ih]

theorem lookupKey_setKey_ne (l : UpdatesMap) (k k' : Nat) (v : Instruction)
    (h : k' ≠ k) : lookupKey (setKey l k v) k' = lookupKey l k' := by
  induction l with
  | nil => simp [setKey, lookupKey, Ne.symm h]
  | cons hd tl ih =>
    obtain ⟨k0, w⟩ := hd
    by_cases h0 : k0 = k
    · subst h0
      simp [setKey, lookupKey, Ne.symm h, h]
    · simp [setKey, lookupKey, h0, ih]

theorem droppedCount_incDropped_self (m : Metrics) (p q : Nat) (r : DropReason) :
    (m.incDropped p q r).droppedCount p q r = m.droppedCount p q r + 1 := by
  simp [Metrics.incDropped, Metrics.droppedCount]

theorem sentCount_incSent_self (m : Metrics) (p q : Nat) :
    (m.incSent p q).sentCount p q = m.sentCount p q + 1 := by
  simp [Metrics.incSent, Metrics.sentCount]

theorem appendUpdate_fst (builder : List Instruction) (insn : Instruction)
    (minSlot : Nat) (m : Metrics) :
    (Buffer.appendUpdateToBuilder builder insn minSlot m).1 =
      if keepInsn minSlot insn then builder ++ [insn] else builder := by
  cases hp : insn.payload with
  | otherCmd t => simp [Buffer.appendUpdateToBuilder, keepInsn, hp]
  | updPrice u =>
    by_cases hs : u.pubSlot < minSlot <;>
      simp [Buffer.appendUpdateToBuilder, keepInsn, hp, hs]

theorem appendUpdate_flag (builder : List Instruction) (insn : Instruction)
    (minSlot : Nat) (m : Metrics) :
    (Buffer.appendUpdateToBuilder builder insn minSlot m).2.2 =
      keepInsn minSlot insn := by
  cases hp : insn.payload with
  | otherCmd t => simp [Buffer.appendUpdateToBuilder, keepInsn, hp]
  | updPrice u =>
    by_cases hs : u.pubSlot < minSlot <;>
      simp [Buffer.appendUpdateToBuilder, keepInsn, hp, hs]

theorem flushLoop_fst (minSlot : Nat) (l : UpdatesMap) :
    ∀ (builder : List Instruction) (m : Metrics) (c : Nat),
    (flushLoop minSlot l builder m c).1 =
      builder ++ (l.map Prod.snd).filter (keepInsn minSlot) := by
  induction l with
  | nil => intro builder m c; simp [flushLoop]
  | cons hd tl ih =>
    intro builder m c
    obtain ⟨k, insn⟩ := hd
    rw [flushLoop, ih]
    rw [appendUpdate_fst]
    by_cases hk : keepInsn minSlot insn <;> simp [hk]

theorem flushLoop_count (minSlot : Nat) (l : UpdatesMap) :
    ∀ (builder : List Instruction) (m : Metrics) (c : Nat),
    (flushLoop minSlot l builder m c).2.2 =
      c + ((l.map Prod.snd).filter (keepInsn minSlot)).length := by
  induction l with
  | nil => intro builder m c; simp [flushLoop]
  | cons hd tl ih =>
    intro builder m c
    obtain ⟨k, insn⟩ := hd
    rw [flushLoop, ih]
    rw [appendUpdate_flag]
    by_cases hk : keepInsn minSlot insn <;> simp [hk] <;> omega

theorem flush_batch_eq (b : Buffer) (m : Metrics) (minSlot : Nat) :
    (b.flush m minSlot).2.2 =
      if (b.updates.map Prod.snd).filter (keepInsn minSlot) = [] then none
      else some ((b.updates.map Prod.snd).filter (keepInsn minSlot)) := by
  have h1 := flushLoop_count minSlot b.updates [] m 0
  have h2 := flushLoop_fst minSlot b.updates [] m 0
  by_cases h : (b.updates.map Prod.snd).filter (keepInsn minSlot) = [] <;>
    simp [Buffer.flush, h1, h2, h, List.length_eq_zero]

theorem mem_flush_batch (b : Buffer) (m : Metrics) (minSlot : Nat)
    (ins : Instruction) :
    ins ∈ batchList (b.flush m minSlot).2.2 ↔
      ins ∈ (b.updates.map Prod.snd).filter (keepInsn minSlot) := by
  rw [flush_batch_eq]
  by_cases h : (b.updates.map Prod.snd).filter (keepInsn minSlot) = [] <;>
    simp [h, batchList]

theorem keepInsn_updPrice (minSlot : Nat) (ins : Instruction)
    (u : CommandUpdPrice) (hp : ins.payload = .updPrice u) :
    keepInsn minSlot ins = true ↔ minSlot ≤ u.pubSlot := by
  by_cases hs : u.pubSlot < minSlot <;> simp [keepInsn, hp, hs] <;> omega

/-! ## Concrete fixture values used by the witnesses -/

def insFresh : Instruction :=
  { payload := .updPrice { status := 1, price := 5, conf := 2, pubSlot := 10 },
    accounts := [7, 8, 9] }

def insFresh2 : Instruction :=
  { payload := .updPrice { status := 1, price := 6, conf := 3, pubSlot := 11 },
    accounts := [7, 8, 9] }

def insStale : Instruction :=
  { payload := .updPrice { status := 1, price := 6, conf := 2, pubSlot := 4 },
    accounts := [7, 6, 9] }

def insTwoAccounts : Instruction :=
  { payload := .updPrice { status := 1, price := 7, conf := 2, pubSlot := 9 },
    accounts := [7, 8] }

def bufOne : Buffer := { updates := [(8, insFresh)] }

/-! ## Claims about the update buffer -/

/-- Claim C1 — for every update drained by `Flush(minSlot)`, the update
is included in the returned batch (and counted as sent) iff its
embedded publish slot `S` satisfies `S >= minSlot`; an update with
`S < minSlot` is excluded and counted as dropped; the boundary
`S = minSlot` is included. -/
theorem c1_flush_freshness_boundary (b : Buffer) (m m0 : Metrics)
    (minSlot k : Nat) (ins : Instruction) (u : CommandUpdPrice)
    (builder : List Instruction)
    (hmem : (k, ins) ∈ b.updates) (hp : ins.payload = .updPrice u) :
    (ins ∈ batchList (b.flush m minSlot).2.2 ↔ minSlot ≤ u.pubSlot)
    ∧ ((Buffer.appendUpdateToBuilder builder ins minSlot m0).2.2 = true ↔
        minSlot ≤ u.pubSlot)
    ∧ (minSlot ≤ u.pubSlot →
        (Buffer.appendUpdateToBuilder builder ins minSlot m0).1
          = builder ++ [ins]
        ∧ (Buffer.appendUpdateToBuilder builder ins minSlot m0).2.1.sentCount
            (ins.accounts.getD 0 0) (ins.accounts.getD 1 0)
          = m0.sentCount (ins.accounts.getD 0 0) (ins.accounts.getD 1 0) + 1)
    ∧ (u.pubSlot < minSlot →
        (Buffer.appendUpdateToBuilder builder ins minSlot m0).1 = builder
        ∧ (Buffer.appendUpdateToBuilder builder ins minSlot
              m0).2.1.droppedCount
            (ins.accounts.getD 0 0) (ins.accounts.getD 1 0) .replaced
          = m0.droppedCount (ins.accounts.getD 0 0) (ins.accounts.getD 1 0)
              .replaced + 1) := by
  refine ⟨?_, ?_, ?_, ?_⟩
  · rw [mem_flush_batch]
    constructor
    · intro h
      have hk := (List.mem_filter.mp h).2
      exact (keepInsn_updPrice minSlot ins u hp).mp hk
    · intro h
      refine List.mem_filter.mpr ⟨?_, (keepInsn_updPrice minSlot ins u hp).mpr h⟩
      exact List.mem_map.mpr ⟨(k, ins), hmem, rfl⟩
  · rw [appendUpdate_flag]
    exact keepInsn_updPrice minSlot ins u hp
  · intro h
    have hs : ¬ u.pubSlot < minSlot := by omega
    constructor
    · simp [Buffer.appendUpdateToBuilder, hp, hs]
    · simp [Buffer.appendUpdateToBuilder, hp, hs, sentCount_incSent_self]
  · intro h
    constructor
    · simp [Buffer.appendUpdateToBuilder, hp, h]
    · simp [Buffer.appendUpdateToBuilder, hp, h, droppedCount_incDropped_self]

theorem c1_flush_freshness_boundary_witness :
    insFresh ∈ batchList (bufOne.flush Metrics.init 10).2.2 :=
  ((c1_flush_freshness_boundary bufOne Metrics.init Metrics.init 10 8 insFresh
      { status := 1, price := 5, conf := 2, pubSlot := 10 } []
      (by decide) rfl).1).mpr (by decide)

/-- Claim C3 — after `Flush(minSlot)` the buffer's map is empty; every
starting entry is either in the returned batch or dropped by the
freshness filter; and a second `Flush` with no intervening `Push`
returns no batch. -/
theorem c3_flush_drains_buffer (b : Buffer) (m : Metrics)
    (minSlot minSlot' : Nat) :
    (b.flush m minSlot).1.updates = []
    ∧ (∀ (k : Nat) (ins : Instruction), (k, ins) ∈ b.updates →
        (ins ∈ batchList (b.flush m minSlot).2.2
         ∨ keepInsn minSlot ins = false))
    ∧ ((b.flush m minSlot).1.flush (b.flush m minSlot).2.1 minSlot').2.2
        = none := by
  refine ⟨rfl, ?_, rfl⟩
  intro k ins hmem
  by_cases hk : keepInsn minSlot ins = true
  · left
    rw [mem_flush_batch]
    exact List.mem_filter.mpr ⟨List.mem_map.mpr ⟨(k, ins), hmem, rfl⟩, hk⟩
  · right
    simpa using hk

theorem c3_flush_drains_buffer_witness :
    insFresh ∈ batchList (bufOne.flush Metrics.init 3).2.2
    ∨ keepInsn 3 insFresh = false :=
  (c3_flush_drains_buffer bufOne Metrics.init 3 5).2.1 8 insFresh (by decide)

/-- Claim C4 — `Flush(minSlot)` returns the absent result (`nil`)
exactly when zero entries survive the freshness filter, and a returned
batch is never empty: `nil` is distinguishable from a zero-instruction
batch. -/
theorem c4_flush_no_empty_batch (b : Buffer) (m : Metrics) (minSlot : Nat) :
    ((b.flush m minSlot).2.2 = none ↔
      (b.updates.map Prod.snd).filter (keepInsn minSlot) = [])
    ∧ ∀ l, (b.flush m minSlot).2.2 = some l → l ≠ [] := by
  constructor
  · rw [flush_batch_eq]
    by_cases h : (b.updates.map Prod.snd).filter (keepInsn minSlot) = [] <;>
      simp [h]
  · intro l hl
    rw [flush_batch_eq] at hl
    by_cases h : (b.updates.map Prod.snd).filter (keepInsn minSlot) = []
    · simp [h] at hl
    · simp [h] at hl
      rw [← hl]
      exact h

theorem c4_flush_no_empty_batch_witness :
    ([insFresh] : List Instruction) ≠ [] :=
  (c4_flush_no_empty_batch bufOne Metrics.init 3).2 [insFresh] rfl

/-- Claim C5 — `PushUpdate` is a no-op (no error, map unchanged, no
counter incremented) on any input whose payload is not the
`upd_price` command or whose referenced-account count is not 3. -/
theorem c5_push_rejects_malformed (b : Buffer) (m : Metrics)
    (ins : Instruction)
    (h : (∀ u, ins.payload ≠ .updPrice u) ∨ ins.accounts.length ≠ 3) :
    b.pushUpdate m ins = (b, m) := by
  cases hp : ins.payload with
  | otherCmd t => simp [Buffer.pushUpdate, hp]
  | updPrice u =>
    rcases h with h | h
    · exact absurd hp (h u)
    · simp [Buffer.pushUpdate, hp, h]

theorem c5_push_rejects_malformed_witness :
    bufOne.pushUpdate Metrics.init insTwoAccounts = (bufOne, Metrics.init) :=
  c5_push_rejects_malformed bufOne Metrics.init insTwoAccounts
    (Or.inr (by decide))

/-- Claim C2 — two accepted `PushUpdate` calls with the same target
account (`accs[1]`) and no intervening `Flush` leave only the second
update in the buffer for that key (all other keys untouched), and the
dropped counter labelled (publisher, target, replaced) goes up by
exactly one — indeed exactly one drop increment is emitted in total. -/
theorem c2_push_coalesces (b : Buffer) (m : Metrics)
    (ins1 ins2 : Instruction) (u1 u2 : CommandUpdPrice) (t : Nat)
    (hp1 : ins1.payload = .updPrice u1) (ha1 : ins1.accounts.length = 3)
    (hp2 : ins2.payload = .updPrice u2) (ha2 : ins2.accounts.length = 3)
    (ht1 : ins1.accounts.getD 1 0 = t) (ht2 : ins2.accounts.getD 1 0 = t)
    (habsent : lookupKey b.updates t = none) :
    lookupKey ((b.pushUpdate m ins1).1.pushUpdate (b.pushUpdate m ins1).2
        ins2).1.updates t = some ins2
    ∧ (∀ k, k ≠ t →
        lookupKey ((b.pushUpdate m ins1).1.pushUpdate (b.pushUpdate m ins1).2
            ins2).1.updates k = lookupKey b.updates k)
    ∧ ((b.pushUpdate m ins1).1.pushUpdate (b.pushUpdate m ins1).2
          ins2).2.droppedCount (ins2.accounts.getD 0 0) t .replaced
        = m.droppedCount (ins2.accounts.getD 0 0) t .replaced + 1
    ∧ ((b.pushUpdate m ins1).1.pushUpdate (b.pushUpdate m ins1).2
          ins2).2.dropEvents.length = m.dropEvents.length + 1 := by
  have h1 : b.pushUpdate m ins1
      = ({ updates := setKey b.updates t ins1 }, m) := by
    simp only [Buffer.pushUpdate, hp1]
    rw [if_neg (by simp [ha1])]
    simp only [ht1, habsent]
  have h2 : (Buffer.mk (setKey b.updates t ins1)).pushUpdate m ins2
      = ({ updates := setKey (setKey b.updates t ins1) t ins2 },
         m.incDropped (ins2.accounts.getD 0 0) t .replaced) := by
    simp only [Buffer.pushUpdate, hp2]
    rw [if_neg (by simp [ha2])]
    simp only [ht2, lookupKey_setKey_self]
  rw [h1]
  rw [h2]
  refine ⟨lookupKey_setKey_self _ _ _, ?_, ?_, ?_⟩
  · intro k hk
    rw [lookupKey_setKey_ne _ _ _ _ hk, lookupKey_setKey_ne _ _ _ _ hk]
  · exact droppedCount_incDropped_self m _ t .replaced
  · simp [Metrics.incDropped]

theorem c2_push_coalesces_witness :
    lookupKey ((Buffer.new.pushUpdate Metrics.init insFresh).1.pushUpdate
        (Buffer.new.pushUpdate Metrics.init insFresh).2
        insFresh2).1.updates 8 = some insFresh2 :=
  (c2_push_coalesces Buffer.new Metrics.init insFresh insFresh2
      { status := 1, price := 5, conf := 2, pubSlot := 10 }
      { status := 1, price := 6, conf := 3, pubSlot := 11 } 8
      rfl rfl rfl rfl rfl rfl rfl).1

/-! ## Reachability invariant for C10 -/

theorem mem_setKey (l : UpdatesMap) (key : Nat) (v : Instruction)
    (k : Nat) (w : Instruction) (h : (k, w) ∈ setKey l key v) :
    (k, w) ∈ l ∨ w = v := by
  induction l with
  | nil =>
    simp [setKey] at h
    exact Or.inr h.2
  | cons hd tl ih =>
    obtain ⟨k0, w0⟩ := hd
    by_cases h0 : k0 = key
    · subst h0
      simp [setKey] at h
      rcases h with ⟨_, hw⟩ | hmem
      · exact Or.inr hw
      · exact Or.inl (List.mem_cons_of_mem _ hmem)
    · simp [setKey, h0] at h
      rcases h with ⟨hk, hw⟩ | hmem
      · exact Or.inl (by simp [hk, hw])
      · rcases ih hmem with hl | hv
        · exact Or.inl (List.mem_cons_of_mem _ hl)
        · exact Or.inr hv

theorem pushUpdate_wellShaped (b : Buffer) (m : Metrics) (ins : Instruction)
    (hinv : ∀ (k : Nat) (v : Instruction), (k, v) ∈ b.updates → wellShaped v)
    (k : Nat) (v : Instruction)
    (h : (k, v) ∈ (b.pushUpdate m ins).1.updates) : wellShaped v := by
  cases hp : ins.payload with
  | otherCmd t =>
    rw [Buffer.pushUpdate, hp] at h
    exact hinv k v h
  | updPrice u =>
    by_cases ha : ins.accounts.length = 3
    · simp only [Buffer.pushUpdate, hp, ha] at h
      simp at h
      rcases mem_setKey _ _ _ _ _ h with hl | hv
      · exact hinv k v hl
      · subst hv
        exact ⟨⟨u, hp⟩, ha⟩
    · simp only [Buffer.pushUpdate, hp] at h
      simp [ha] at h
      exact hinv k v h

theorem runOps_wellShaped (ops : List BufOp) :
    ∀ (st : Buffer × Metrics),
    (∀ (k : Nat) (v : Instruction), (k, v) ∈ st.1.updates → wellShaped v) →
    ∀ (k : Nat) (v : Instruction),
      (k, v) ∈ (runOps ops st).1.updates → wellShaped v := by
  induction ops with
  | nil => intro st hinv k v h; exact hinv k v h
  | cons op rest ih =>
    intro st hinv k v h
    obtain ⟨b, m⟩ := st
    cases op with
    | push ins =>
      rw [runOps] at h
      exact ih _ (fun k' v' h' => pushUpdate_wellShaped b m ins hinv k' v' h')
        k v h
    | flushOp minSlot =>
      rw [runOps] at h
      refine ih _ ?_ k v h
      intro k' v' h'
      simp [Buffer.flush] at h'

/-- Claim C10 — every entry ever stored in the buffer's map (through
any trace of `PushUpdate`/`Flush` operations from `NewBuffer`) has an
`upd_price` payload with exactly 3 referenced accounts, so the
defensive branch of `appendUpdateToBuilder` that silently drops a
non-`upd_price` entry is unreachable during `Flush`: whenever such an
entry is declined, a drop counter is incremented (the silent branch —
declined with metrics untouched — never fires). -/
theorem c10_defensive_branch_unreachable (ops : List BufOp) (m0 : Metrics)
    (k : Nat) (ins : Instruction)
    (hmem : (k, ins) ∈ (runOps ops (Buffer.new, m0)).1.updates) :
    wellShaped ins
    ∧ ∀ (minSlot : Nat) (builder : List Instruction) (mm : Metrics),
        (Buffer.appendUpdateToBuilder builder ins minSlot mm).2.2 = false →
        (Buffer.appendUpdateToBuilder builder ins minSlot mm).2.1 ≠ mm := by
  have hws : wellShaped ins := by
    refine runOps_wellShaped ops (Buffer.new, m0) ?_ k ins hmem
    intro k' v' h'
    simp [Buffer.new] at h'
  refine ⟨hws, ?_⟩
  intro minSlot builder mm hflag
  obtain ⟨⟨u, hp⟩, _⟩ := hws
  rw [appendUpdate_flag] at hflag
  have hs : u.pubSlot < minSlot := by
    by_contra hns
    have := (keepInsn_updPrice minSlot ins u hp).mpr (by omega)
    rw [this] at hflag
    cases hflag
  simp only [Buffer.appendUpdateToBuilder, hp, hs, if_pos]
  intro hEq
  have hlen := congrArg (fun mx => mx.dropEvents.length) hEq
  simp [Metrics.incDropped] at hlen

theorem c10_defensive_branch_unreachable_witness : wellShaped insFresh :=
  (c10_defensive_branch_unreachable [.push insFresh] Metrics.init 8 insFresh
    (by decide)).1

/-! ## Claims about the slot monitors -/

theorem fillTimestamp_updateType (u : SlotsUpdatesResult) (now : Int) :
    (fillTimestamp u now).updateType = u.updateType := by
  cases h : u.timestamp <;> simp [fillTimestamp, h]

theorem fillTimestamp_slot (u : SlotsUpdatesResult) (now : Int) :
    (fillTimestamp u now).slot = u.slot := by
  cases h : u.timestamp <;> simp [fillTimestamp, h]

/-- Claim C6 — `Slot()` returns 0 before any accepted event; after the
monitor processes a "first shred received" event carrying slot `N`,
`Slot()` returns `N`; read errors, nil messages and events of any
other subtype never change the value `Slot()` returns. -/
theorem c6_slot_query (s : SlotMonitorState) (u : SlotsUpdatesResult)
    (e : GoErr) (now : Int) (ctxErr : Option GoErr) (oracle : Bool) :
    SlotMonitorState.new.slotFn = 0
    ∧ (u.updateType = .firstShredReceived →
        ((s.readNextUpdate (.recvMsg (some u)) now ctxErr oracle).1).slotFn
          = u.slot)
    ∧ (u.updateType ≠ .firstShredReceived →
        ((s.readNextUpdate (.recvMsg (some u)) now ctxErr oracle).1).slotFn
          = s.slotFn)
    ∧ ((s.readNextUpdate (.recvErr e) now ctxErr oracle).1).slotFn = s.slotFn
    ∧ ((s.readNextUpdate (.recvMsg none) now ctxErr oracle).1).slotFn
        = s.slotFn := by
  refine ⟨rfl, ?_, ?_, rfl, rfl⟩
  · intro h
    simp [SlotMonitorState.readNextUpdate, SlotMonitorState.slotFn,
      fillTimestamp_updateType, fillTimestamp_slot, h]
  · intro h
    simp [SlotMonitorState.readNextUpdate, SlotMonitorState.slotFn,
      fillTimestamp_updateType, h]

theorem c6_slot_query_witness :
    ((SlotMonitorState.new.readNextUpdate
        (.recvMsg (some { updateType := .firstShredReceived, slot := 42,
                          timestamp := none }))
        0 none true).1).slotFn = 42 :=
  (c6_slot_query SlotMonitorState.new
      { updateType := .firstShredReceived, slot := 42, timestamp := none }
      .errClosed 0 none true).2.1 rfl

/-- Claim C7, as stated, is false for `Schedule.Run` (schedule.go:35):
its retry classification marks `context.DeadlineExceeded` — which is
not caller-requested cancellation — as `backoff.Permanent`, a terminal
outcome surfaced to `Run`'s caller. -/
theorem c7_counterexample :
    scheduleClassifyRunError (some .deadlineExceeded) none
      = .permanent .deadlineExceeded
    ∧ GoErr.deadlineExceeded ≠ GoErr.canceled := by
  decide

/-- Claim C7 (amended) — in `SlotMonitor.Run`, caller-requested
cancellation is the only error classified as permanent (terminal);
every other error, including a per-read deadline expiry, is retried
(or, when the run context has ended, the loop stops cleanly without a
fatal error).  `Schedule.Run` differs: it additionally classifies
`context.DeadlineExceeded` as permanent, so only for that loop can a
surfaced deadline expiry become a fatal outcome. -/
theorem c7_amended_terminal_classification :
    (∀ (err ctxErr : Option GoErr) (e : GoErr),
        slotMonitorClassifyRunError err ctxErr = .permanent e →
        err = some .canceled ∧ e = .canceled)
    ∧ (∀ (e : GoErr), e ≠ .canceled →
        slotMonitorClassifyRunError (some e) none = .transient e)
    ∧ slotMonitorClassifyRunError (some .deadlineExceeded) none
        = .transient .deadlineExceeded
    ∧ (∀ (err ctxErr : Option GoErr) (e : GoErr),
        scheduleClassifyRunError err ctxErr = .permanent e →
        err = some .canceled ∨ err = some .deadlineExceeded) := by
  refine ⟨?_, ?_, by decide, ?_⟩
  · intro err ctxErr e h
    cases err with
    | none =>
      simp only [slotMonitorClassifyRunError, errIs] at h
      cases ctxErr <;> simp at h
    | some e' =>
      by_cases hc : e' = GoErr.canceled
      · subst hc
        simp only [slotMonitorClassifyRunError, errIs] at h
        simp at h
        exact ⟨rfl, h.symm⟩
      · simp only [slotMonitorClassifyRunError, errIs] at h
        rw [if_neg (by simp [hc])] at h
        cases ctxErr <;> simp at h
  · intro e he
    simp only [slotMonitorClassifyRunError, errIs]
    rw [if_neg (by simp [he])]
    simp
  · intro err ctxErr e h
    cases err with
    | none =>
      simp only [scheduleClassifyRunError, errIs] at h
      cases ctxErr <;> simp at h
    | some e' =>
      by_cases hc : e' = GoErr.canceled
      · exact Or.inl (by rw [hc])
      · by_cases hd : e' = GoErr.deadlineExceeded
        · exact Or.inr (by rw [hd])
        · simp only [scheduleClassifyRunError, errIs] at h
          rw [if_neg (by simp [hc, hd])] at h
          cases ctxErr <;> simp at h

theorem c7_amended_terminal_classification_witness :
    slotMonitorClassifyRunError (some (.connErr 5)) none
      = .transient (.connErr 5) :=
  c7_amended_terminal_classification.2.1 (.connErr 5) (by decide)

/-- Claim C8 — on an accepted slot event, the embedded select (whose
`default` case makes it total, hence non-suspending) never blocks the
read loop: while the per-read context is live and a previous value is
still unconsumed in the capacity-1 channel, the new value is dropped —
the channel keeps the old value — and `readNextUpdate` returns nil so
the read loop proceeds. -/
theorem c8_nonblocking_send (s : SlotMonitorState)
    (u v : SlotsUpdatesResult) (now : Int) (oracle : Bool)
    (hacc : u.updateType = .firstShredReceived)
    (hfull : s.chan = some v) :
    ((s.readNextUpdate (.recvMsg (some u)) now none oracle).1).chan = some v
    ∧ (s.readNextUpdate (.recvMsg (some u)) now none oracle).2 = .retOk := by
  constructor <;>
    simp [SlotMonitorState.readNextUpdate, fillTimestamp_updateType, hacc,
      hfull, selectSend]

theorem c8_nonblocking_send_witness :
    ((SlotMonitorState.mk 7
        (some { updateType := .firstShredReceived, slot := 7,
                timestamp := some 0 }) [7] 1).readNextUpdate
      (.recvMsg (some { updateType := .firstShredReceived, slot := 9,
                        timestamp := some 3 }))
      5 none false).2 = .retOk :=
  (c8_nonblocking_send
      (SlotMonitorState.mk 7
        (some { updateType := .firstShredReceived, slot := 7,
                timestamp := some 0 }) [7] 1)
      { updateType := .firstShredReceived, slot := 9, timestamp := some 3 }
      { updateType := .firstShredReceived, slot := 7, timestamp := some 0 }
      5 false rfl rfl).2

/-- Claim C9, as stated, is false: the two implementations do not
behave identically on a nil message — `Schedule.readNextUpdate`
returns nil and keeps reading, while `SlotMonitor.readNextUpdate`
returns `net.ErrClosed`, forcing a reconnect — a behavioural
difference beyond slot exposure and publishing. -/
theorem c9_counterexample :
    (ScheduleState.new.readNextUpdate (.recvMsg none) 0 none true).2
      = .retOk
    ∧ (SlotMonitorState.new.readNextUpdate (.recvMsg none) 0 none true).2
      = .retErr .errClosed
    ∧ StepResult.retOk ≠ StepResult.retErr .errClosed := by
  decide

/-- Claim C9 (amended) — the two monitors are near-duplicates: on
every read error and every (accepted or discarded) message,
`Schedule.readNextUpdate` behaves exactly like
`SlotMonitor.readNextUpdate` with the slot/bus/metric state projected
away; beyond the slot exposure and publishing, they differ in exactly
two further ways: on a nil message `SlotMonitor` returns
`net.ErrClosed` (reconnect) where `Schedule` returns nil (continue),
and `Schedule.Run` additionally classifies `context.DeadlineExceeded`
as permanent where `SlotMonitor.Run` retries it. -/
theorem c9_amended_near_duplication :
    (∀ (s : SlotMonitorState) (recv : RecvOutcome) (now : Int)
       (ctxErr : Option GoErr) (oracle : Bool),
       recv ≠ .recvMsg none →
       ((ScheduleState.mk s.chan).readNextUpdate recv now ctxErr
           oracle).1.chan
         = ((s.readNextUpdate recv now ctxErr oracle).1).chan
       ∧ ((ScheduleState.mk s.chan).readNextUpdate recv now ctxErr oracle).2
         = (s.readNextUpdate recv now ctxErr oracle).2)
    ∧ (∀ (s : SlotMonitorState) (now : Int) (ctxErr : Option GoErr)
         (oracle : Bool),
        s.readNextUpdate (.recvMsg none) now ctxErr oracle
          = (s, .retErr .errClosed)
        ∧ (ScheduleState.mk s.chan).readNextUpdate (.recvMsg none) now
            ctxErr oracle
          = (ScheduleState.mk s.chan, .retOk))
    ∧ (∀ (err ctxErr : Option GoErr), ¬ errIs err .deadlineExceeded →
        scheduleClassifyRunError err ctxErr
          = slotMonitorClassifyRunError err ctxErr) := by
  refine ⟨?_, ?_, ?_⟩
  · intro s recv now ctxErr oracle hrecv
    cases recv with
    | recvErr e =>
      exact ⟨rfl, rfl⟩
    | recvMsg u? =>
      cases u? with
      | none => exact absurd rfl hrecv
      | some u =>
        by_cases hacc : (fillTimestamp u now).updateType
            = .firstShredReceived
        · constructor <;>
            simp [ScheduleState.readNextUpdate,
              SlotMonitorState.readNextUpdate, hacc]
        · constructor <;>
            simp [ScheduleState.readNextUpdate,
              SlotMonitorState.readNextUpdate, hacc]
  · intro s now ctxErr oracle
    exact ⟨rfl, rfl⟩
  · intro err ctxErr hnd
    cases err with
    | none => rfl
    | some e =>
      by_cases hc : e = GoErr.canceled
      · subst hc; rfl
      · have hd : e ≠ GoErr.deadlineExceeded := by
          intro h
          rw [h] at hnd
          simp [errIs] at hnd
        cases ctxErr <;>
          simp [scheduleClassifyRunError, slotMonitorClassifyRunError,
            errIs, hc, hd]

theorem c9_amended_near_duplication_witness :
    ((ScheduleState.mk none).readNextUpdate (.recvErr (.connErr 3)) 0 none
        true).2
      = ((SlotMonitorState.new.readNextUpdate (.recvErr (.connErr 3)) 0 none
          true)).2 :=
  (c9_amended_near_duplication.1 SlotMonitorState.new (.recvErr (.connErr 3))
    0 none true (by decide)).2
